import Mathlib

/-
  Verification development for the HPC Provenance client CLI
  (src/client_cli/provenance-cli.py).

  The Python source is shallowly embedded below: pure functions become Lean
  functions over Nat / Int / String / List, Python `None`-able strings become
  `Option String` (or plain `String` where the source only ever tests
  truthiness, so that `None` and `""` are indistinguishable), fallible code
  returns `Except`/a dedicated result type, and machine 32-bit arithmetic is
  `Nat` masked with `&&& 0xFFFFFFFF`.
-/

namespace Provenance

/-! ### MD5 (hashlib.md5), embedded over byte lists -/

/-- Mask for 32-bit arithmetic. -/
def mask32 : Nat := 4294967295

/-- 32-bit truncating addition. -/
def add32 (a b : Nat) : Nat := (a + b) &&& mask32

/-- 32-bit bitwise complement. -/
def not32 (a : Nat) : Nat := a ^^^ mask32

/-- 32-bit left rotation. -/
def rotl32 (x n : Nat) : Nat := ((x <<< n) ||| (x >>> (32 - n))) &&& mask32

/-- The 64 MD5 sine-derived round constants. -/
def md5K : List Nat :=
  [3614090360, 3905402710, 606105819, 3250441966, 4118548399, 1200080426, 2821735955, 4249261313,
   1770035416, 2336552879, 4294925233, 2304563134, 1804603682, 4254626195, 2792965006, 1236535329,
   4129170786, 3225465664, 643717713, 3921069994, 3593408605, 38016083, 3634488961, 3889429448,
   568446438, 3275163606, 4107603335, 1163531501, 2850285829, 4243563512, 1735328473, 2368359562,
   4294588738, 2272392833, 1839030562, 4259657740, 2763975236, 1272893353, 4139469664, 3200236656,
   681279174, 3936430074, 3572445317, 76029189, 3654602809, 3873151461, 530742520, 3299628645,
   4096336452, 1126891415, 2878612391, 4237533241, 1700485571, 2399980690, 4293915773, 2240044497,
   1873313359, 4264355552, 2734768916, 1309151649, 4149444226, 3174756917, 718787259, 3951481745]

/-- The 64 MD5 per-round left-rotation amounts. -/
def md5S : List Nat :=
  [7, 12, 17, 22, 7, 12, 17, 22, 7, 12, 17, 22, 7, 12, 17, 22,
   5, 9, 14, 20, 5, 9, 14, 20, 5, 9, 14, 20, 5, 9, 14, 20,
   4, 11, 16, 23, 4, 11, 16, 23, 4, 11, 16, 23, 4, 11, 16, 23,
   6, 10, 15, 21, 6, 10, 15, 21, 6, 10, 15, 21, 6, 10, 15, 21]

/-- Little-endian 4-byte rendering of a 32-bit word. -/
def leBytes4 (n : Nat) : List Nat :=
  [n &&& 255, (n >>> 8) &&& 255, (n >>> 16) &&& 255, (n >>> 24) &&& 255]

/-- Little-endian 8-byte rendering of the 64-bit message bit length. -/
def leBytes8 (n : Nat) : List Nat :=
  (List.range 8).map fun i => (n >>> (8 * i)) &&& 255

/-- Little-endian 32-bit word read from a byte list at an offset. -/
def leWordAt (bytes : List Nat) (off : Nat) : Nat :=
  bytes.getD off 0 + (bytes.getD (off + 1) 0) <<< 8 +
    (bytes.getD (off + 2) 0) <<< 16 + (bytes.getD (off + 3) 0) <<< 24

/-- MD5 padding: a 0x80 byte, zeros to 56 mod 64, then the bit length. -/
def md5Pad (msg : List Nat) : List Nat :=
  let len := msg.length
  let zeros := (119 - len % 64) % 64
  msg ++ [128] ++ List.replicate zeros 0 ++ leBytes8 ((len * 8) % (2 ^ 64))

/-- One of the 64 MD5 rounds applied to the running (A, B, C, D) state. -/
def md5Round (m : List Nat) (st : Nat × Nat × Nat × Nat) (i : Nat) : Nat × Nat × Nat × Nat :=
  let (a, b, c, d) := st
  let fg : Nat × Nat :=
    if i < 16 then ((b &&& c) ||| (not32 b &&& d), i)
    else if i < 32 then ((d &&& b) ||| (not32 d &&& c), (5 * i + 1) % 16)
    else if i < 48 then (b ^^^ c ^^^ d, (3 * i + 5) % 16)
    else (c ^^^ (b ||| not32 d), (7 * i) % 16)
  let f := (fg.1 + a + md5K.getD i 0 + m.getD fg.2 0) &&& mask32
  (d, add32 b (rotl32 f (md5S.getD i 0)), b, c)

/-- MD5 compression of one 64-byte chunk into the chaining state. -/
def md5Compress (st : Nat × Nat × Nat × Nat) (chunk : List Nat) : Nat × Nat × Nat × Nat :=
  let m := (List.range 16).map fun i => leWordAt chunk (4 * i)
  let (a, b, c, d) := (List.range 64).foldl (md5Round m) st
  (add32 st.1 a, add32 st.2.1 b, add32 st.2.2.1 c, add32 st.2.2.2 d)

/-- MD5 digest (16 bytes) of a byte list. -/
def md5Bytes (msg : List Nat) : List Nat :=
  let padded := md5Pad msg
  let st := (List.range (padded.length / 64)).foldl
    (fun st k => md5Compress st ((padded.drop (64 * k)).take 64))
    (1732584193, 4023233417, 2562383102, 271733878)
  leBytes4 st.1 ++ leBytes4 st.2.1 ++ leBytes4 st.2.2.1 ++ leBytes4 st.2.2.2

/-- The lowercase hexadecimal alphabet. -/
def hexAlphabet : List Char := "0123456789abcdef".data

/-- Two lowercase hex characters for one byte. -/
def byteToHex (b : Nat) : List Char :=
  [hexAlphabet.getD (b / 16 % 16) '0', hexAlphabet.getD (b % 16) '0']

/-- Lowercase hexadecimal digest of a byte list, as `hashlib.md5(...).hexdigest()`. -/
def md5HexDigest (msg : List Nat) : String :=
  String.mk ((md5Bytes msg).map byteToHex).flatten

/-- UTF-8 encoding of one Unicode code point. -/
def utf8Bytes (c : Nat) : List Nat :=
  if c < 128 then [c]
  else if c < 2048 then [192 ||| (c >>> 6), 128 ||| (c &&& 63)]
  else if c < 65536 then
    [224 ||| (c >>> 12), 128 ||| ((c >>> 6) &&& 63), 128 ||| (c &&& 63)]
  else
    [240 ||| (c >>> 18), 128 ||| ((c >>> 12) &&& 63), 128 ||| ((c >>> 6) &&& 63),
     128 ||| (c &&& 63)]

/-- UTF-8 bytes of a string (`str.encode` in the source; the codec name
`UTF=8` in the source normalizes to `utf_8`). -/
def strBytes (s : String) : List Nat :=
  (s.data.map fun c => utf8Bytes c.toNat).flatten

/-! ### RESTful_API._uniqID -/

/-- Python `filter(None, ...)` over a list of `None`-able strings: drops
`None` and empty strings. -/
def pyFilterNone (l : List (Option String)) : List String :=
  l.filterMap fun o => match o with
    | none => none
    | some v => if v = "" then none else some v

/-- Python `''.join(...)`. -/
def pyJoin (l : List String) : String := l.foldl (· ++ ·) ""

/-- `RESTful_API._uniqID(cluster, sched, jobid, taskid)`: MD5 hex digest of
the concatenation of the non-empty fields in the order scheduler, cluster,
job id, task id. -/
def uniqID (cluster sched jobid taskid : Option String) : String :=
  md5HexDigest (strBytes (pyJoin (pyFilterNone [sched, cluster, jobid, taskid])))

/-! ### RESTful_API._find_absolute_path

In the source every input is only ever used through Python truthiness, the
substring test `in`, and string equality, so `None` and `""` behave
identically; the three inputs are therefore modeled as plain strings with
`""` standing for an absent value. -/

/-- Python substring test `needle in hay` on character lists. -/
def listSub (needle : List Char) : List Char → Bool
  | [] => needle.isEmpty
  | c :: rest => needle.isPrefixOf (c :: rest) || listSub needle rest

/-- Python substring test `needle in hay` for strings. -/
def strContains (hay needle : String) : Bool := listSub needle.data hay.data

/-- `str.startswith(pre)`, on character lists (kernel-reducible). -/
def pyStartsWith (s pre : String) : Bool := pre.data.isPrefixOf s.data

/-- Python `s[:-1]`: drop the last character. -/
def strDropLast (s : String) : String := String.mk s.data.dropLast

/-- The placeholder emitted when no path could be derived. -/
def noPathPlaceholder : String := "Changelog didn\x27t Record the Path"

/-- `RESTful_API._find_absolute_path(target_file, target_path, parent_path)`. -/
def findAbsolutePath (targetFile targetPath parentPath : String) : String :=
  if targetFile ≠ "" then
    if strContains targetPath targetFile then targetPath
    else (if parentPath ≠ "" then parentPath ++ "/" else "") ++ targetFile
  else if targetPath ≠ "" then
    if targetPath = "File Not Exist" then
      (if parentPath ≠ "" then parentPath else noPathPlaceholder)
    else targetPath
  else if parentPath ≠ "" then parentPath
  else noPathPlaceholder

/-- The cascade of the absolute-path claim, written following the claim
sentence by sentence (with the placeholder string the source actually
uses). -/
def resolveSpec (targetFile targetPath parentPath : String) : String :=
  if targetFile ≠ "" ∧ strContains targetPath targetFile then targetPath
  else if targetFile ≠ "" then
    (if parentPath ≠ "" then parentPath ++ "/" ++ targetFile else targetFile)
  else if targetPath ≠ "" ∧ targetPath ≠ "File Not Exist" then targetPath
  else if targetPath = "File Not Exist" then
    (if parentPath ≠ "" then parentPath else noPathPlaceholder)
  else if parentPath ≠ "" then parentPath
  else noPathPlaceholder

/-! ### RESTful_API._convert_from_byte

The source computes on Python floats; the embedding uses exact rationals,
with `%.2f` rendered by rounding half up to two decimal places. -/

/-- Two-decimal rendering of a non-negative rational, as `"%.2f" % x`
(rounding half up; the float ties of the source cannot be hit at the
claim values). -/
def fmtTwoDec (x : ℚ) : String :=
  let n := (⌊x * 100 + 1 / 2⌋).toNat
  toString (n / 100) ++ "." ++
    (if n % 100 < 10 then "0" ++ toString (n % 100) else toString (n % 100))

/-- The source loop: `while units: if x < 1024: break; x /= 1014;
unit = units.pop(0)`. -/
def convGo : ℚ → List String → String → String
  | x, [], unit => fmtTwoDec x ++ " " ++ unit
  | x, next :: rest, unit =>
    if x < 1024 then fmtTwoDec x ++ " " ++ unit
    else convGo (x / 1014) rest next

/-- `RESTful_API._convert_from_byte`, on the parsed numeric value. -/
def convertFromByte (x : ℚ) : String := convGo x ["KB", "MB", "GB", "TB"] "B"

/-- Closed form of the converter claim: the number of divisions is the least
count (at most four) after which the running value drops below the 1024
threshold, each division is by 1014, and the unit advances B, KB, MB, GB,
TB with the count. -/
def claimConvert (x : ℚ) : String :=
  if x < 1024 then fmtTwoDec x ++ " B"
  else if x / 1014 < 1024 then fmtTwoDec (x / 1014) ++ " KB"
  else if x / 1014 / 1014 < 1024 then fmtTwoDec (x / 1014 / 1014) ++ " MB"
  else if x / 1014 / 1014 / 1014 < 1024 then fmtTwoDec (x / 1014 / 1014 / 1014) ++ " GB"
  else fmtTwoDec (x / 1014 / 1014 / 1014 / 1014) ++ " TB"

/-! ### ProvenanceShell._pars_jobs_args

The validator takes the whitespace-split token stream of the `jobs`
command. Its Python result is either the collected `OrderedDict`, or a
one-entry `{"error": msg}` dict; additionally `int(value)` on a
non-integer `days` value raises an uncaught `ValueError`. The three
outcomes are modeled by `ParseResult`. -/

/-- Outcome of `_pars_jobs_args`: the argument map, a single error message,
or an uncaught exception escaping the function. -/
inductive ParseResult where
  | ok (m : List (String × Option String))
  | err (msg : String)
  | exn
  deriving DecidableEq

/-- The collected argument map: an insertion-ordered association list,
mirroring `OrderedDict`. -/
abbrev ArgMap := List (String × Option String)

/-- Python dict `update({k: v})`: replaces the value of an existing key in
place, otherwise appends the new key at the end. -/
def pyUpd {β : Type} : List (String × β) → String → β → List (String × β)
  | [], k, v => [(k, v)]
  | p :: rest, k, v => if p.1 = k then (k, v) :: rest else p :: pyUpd rest k v

/-- `list(arg_map.keys())[-1]` (the walk only reads it on a non-empty map). -/
def lastKey (m : ArgMap) : String := (m.map Prod.fst).getLastD ""

/-- The mutate-while-iterating removal of `-f`/`--files`: `pop(inx)` shifts
the next token into the current slot and the `enumerate` iteration then
skips it. Returns the remaining tokens and whether a files flag was seen. -/
def stripFiles : List String → List String × Bool
  | [] => ([], false)
  | [tok] => if tok = "-f" ∨ tok = "--files" then ([], true) else ([tok], false)
  | tok :: keep :: rest =>
    if tok = "-f" ∨ tok = "--files" then (keep :: (stripFiles rest).1, true)
    else
      let r := stripFiles (keep :: rest)
      (tok :: r.1, r.2)

/-- The `valid_ops` flag table mapping a spelling to its field key. -/
def flagKey (opt : String) : Option String :=
  if opt = "-j" ∨ opt = "--jobid" then some "jobid"
  else if opt = "-t" ∨ opt = "--taskid" then some "taskid"
  else if opt = "-c" ∨ opt = "--cluster" then some "cluster"
  else if opt = "-js" ∨ opt = "--job-status" then some "js"
  else if opt = "-d" ∨ opt = "--days" then some "days"
  else if opt = "-u" ∨ opt = "--username" then some "user"
  else if opt = "-s" ∨ opt = "--sort" then some "sort"
  else none

/-- Error text for an unrecognized or malformed flag token. -/
def invalidOptionMsg (opt : String) : String :=
  "The \x27" ++ opt ++ "\x27 is not a valid option for \x27list\x27"

/-- Error text for a value token that itself looks like a flag. -/
def invalidValueMsg (value opt : String) : String :=
  "The \x27" ++ value ++ "\x27 is not a valid value for \x27" ++ opt ++ "\x27"

/-- The even/odd indexed token walk of the source: even-indexed tokens must
be recognized flags (inserted with a `None` value), odd-indexed tokens are
stored under the key of the *last* map entry. -/
def pairWalk : List String → ArgMap → Except String ArgMap
  | [], m => .ok m
  | [opt], m =>
    if ¬ pyStartsWith opt "-" then .error (invalidOptionMsg opt)
    else match flagKey opt with
      | some key => .ok (pyUpd m key none)
      | none => .error (invalidOptionMsg opt)
  | opt :: value :: rest, m =>
    if ¬ pyStartsWith opt "-" then .error (invalidOptionMsg opt)
    else match flagKey opt with
      | none => .error (invalidOptionMsg opt)
      | some key =>
        let m1 := pyUpd m key none
        if pyStartsWith value "-" then .error (invalidValueMsg value opt)
        else pairWalk rest (pyUpd m1 (lastKey m1) (some value))

/-- The `valid_status` two-way lookup. -/
def statusOf (v : String) : Option String :=
  if v = "r" ∨ v = "R" then some "RUNNING"
  else if v = "f" ∨ v = "F" then some "FINISHED"
  else none

/-- Valid digit body of a Python base-10 int literal: digits, with single
underscores strictly between digits. -/
def pyDigitsAux : List Char → Bool
  | [] => true
  | c :: rest =>
    if c.isDigit then pyDigitsAux rest
    else if c = '_' then
      match rest with
      | [] => false
      | d :: _ => d.isDigit && pyDigitsAux rest
    else false

/-- A non-empty digit body starting with a digit. -/
def pyIntDigits (cs : List Char) : Bool :=
  match cs with
  | [] => false
  | c :: _ => c.isDigit && pyDigitsAux cs

/-- Numeric value of a digit body with underscores removed. -/
def digitsToNat (cs : List Char) : Nat :=
  (cs.filter (· ≠ Char.ofNat 95)).foldl (fun a c => a * 10 + (c.toNat - 48)) 0

/-- CPython `int(s)` for base 10 on ASCII input: optional surrounding
whitespace, an optional sign, then a digit body; `none` models the raised
`ValueError`. (Non-ASCII digits are outside the model.) -/
def pythonInt (s : String) : Option Int :=
  let cs := ((s.data.dropWhile Char.isWhitespace).reverse.dropWhile Char.isWhitespace).reverse
  match cs with
  | '+' :: rest => if pyIntDigits rest then some (digitsToNat rest : Int) else none
  | '-' :: rest => if pyIntDigits rest then some (-(digitsToNat rest : Int)) else none
  | rest => if pyIntDigits rest then some (digitsToNat rest : Int) else none

/-- Error text for a field collected without a value. -/
def noValueMsg (k : String) : String := "The \x27" ++ k ++ "\x27 option has no value"

/-- Error text for an unrecognized job-status value. -/
def badStatusMsg (v k : String) : String :=
  "The \x27" ++ v ++ "\x27 is not valid argument for \x27" ++ k ++ "\x27 option."

/-- Error text for a days value below one. -/
def badDaysMsg : String := "The Number of days cannot be less than \x271\x27"

/-- The single verification pass over the collected fields, in insertion
order: per field first the empty-value check, then status normalization
(for `js`), then the days bound (where `int(value)` raises on a
non-integer). The map is returned with `js` normalized. -/
def verifyFields : ArgMap → ParseResult
  | [] => .ok []
  | (k, v) :: rest =>
    match v with
    | none => .err (noValueMsg k)
    | some s =>
      if s = "" then .err (noValueMsg k)
      else if k = "js" then
        match statusOf s with
        | none => .err (badStatusMsg s k)
        | some st =>
          match verifyFields rest with
          | .ok m => .ok ((k, some st) :: m)
          | r => r
      else if k = "days" then
        match pythonInt s with
        | none => .exn
        | some n =>
          if n < 1 then .err badDaysMsg
          else match verifyFields rest with
            | .ok m => .ok ((k, some s) :: m)
            | r => r
      else
        match verifyFields rest with
        | .ok m => .ok ((k, some s) :: m)
        | r => r

/-- `arg_map.get(k, None)`: the stored value, with both a missing key and a
stored `None` collapsing to `none`. -/
def pyGetV (m : ArgMap) (k : String) : Option String :=
  match m.lookup k with
  | some v => v
  | none => none

/-- Python truthiness of a possibly-missing string. -/
def pyTruthy (o : Option String) : Bool :=
  match o with
  | some v => !(v == "")
  | none => false

/-- Error text for `FINISHED` without a days filter. -/
def finishedDaysMsg : String :=
  "For \x27FINISHED\x27 jobs, [-d | --days] option must be defined"

/-- Error text for a job id without a cluster (wording as in the source). -/
def jobidClusterMsg : String :=
  "The cluster name must be defined by [-c | --cluster] one a \x27jobid\x27 is selected"

/-- Error text for a task id without a job id. -/
def taskidJobidMsg : String :=
  "jobid must be selected by [-j | --jobid] for the given \x27taskid\x27"

/-- The three cross-field rules, checked after the verification pass. -/
def crossCheck (m : ArgMap) : ParseResult :=
  if pyGetV m "js" = some "FINISHED" ∧ ¬ pyTruthy (pyGetV m "days") then .err finishedDaysMsg
  else if pyTruthy (pyGetV m "jobid") ∧ ¬ pyTruthy (pyGetV m "cluster") then .err jobidClusterMsg
  else if pyTruthy (pyGetV m "taskid") ∧ ¬ pyTruthy (pyGetV m "jobid") then .err taskidJobidMsg
  else .ok m

/-- The map entering the pair walk: `files` pre-recorded when its flag was
found. -/
def filesMap (found : Bool) : ArgMap := if found then [("files", some "y")] else []

/-- The pair-walk stage of `_pars_jobs_args` on a raw token stream. -/
def rawWalk (tokens : List String) : Except String ArgMap :=
  pairWalk (stripFiles tokens).1 (filesMap (stripFiles tokens).2)

/-- `ProvenanceShell._pars_jobs_args` on the whitespace-split token stream. -/
def parsJobsArgs (tokens : List String) : ParseResult :=
  match rawWalk tokens with
  | .error e => .err e
  | .ok m =>
    match verifyFields m with
    | .ok m1 => crossCheck m1
    | r => r

/-- The three cross-field rules of the claim, over the resulting map. -/
def rulesHold (m : ArgMap) : Prop :=
  (pyGetV m "js" = some "FINISHED" → pyTruthy (pyGetV m "days") = true) ∧
  (pyTruthy (pyGetV m "taskid") = true → pyTruthy (pyGetV m "jobid") = true) ∧
  (pyTruthy (pyGetV m "jobid") = true → pyTruthy (pyGetV m "cluster") = true)

/-- Every collected field carries a non-empty value. -/
def populated (m : ArgMap) : Prop := ∀ p ∈ m, ∃ v, p.2 = some v ∧ v ≠ ""

/-! ### ProvenanceShell.Session and its transitions -/

/-- The four session modes (`ProvenanceShell.Mode`). -/
inductive Mode where
  | root
  | server
  | target
  | jobs
  deriving DecidableEq

/-- `ProvenanceShell.Session`: the mode tag plus the ad hoc nullable
fields. -/
structure Session where
  mode : Mode
  serverType : Option String
  serverName : Option String
  targetName : Option String
  targetList : List String
  deriving DecidableEq

/-- The initial session (`Session.__init__`), also the result of
`setToRoot`. -/
def rootSession : Session := ⟨.root, none, none, none, []⟩

/-- `Session.updateServerMode`. -/
def updateServerMode (stype sname : Option String) (tlist : List String) : Session :=
  ⟨.server, stype, sname, none, tlist⟩

/-- `Session.updateTargetMode`. -/
def updateTargetMode (s : Session) (target : String) : Session :=
  { s with mode := .target, targetName := some target }

/-- `Session.updateJobsMode`. -/
def updateJobsMode : Session := ⟨.jobs, none, none, none, []⟩

/-- The server/target catalogs fetched from `/schema`. -/
structure LustreSchema where
  mds : List (String × List String)
  oss : List (String × List String)

/-- Python `f"..."` of a possibly-`None` string. -/
def pyStr (o : Option String) : String := o.getD "None"

/-- Error text of `set_target` outside server/target mode. -/
def noServerMsg (t : String) : String :=
  "No Server has been selected for (" ++ t ++ ") target"

/-- Error text of `set_target` for a name not in the current target list. -/
def notTargetMsg (server t : String) : String :=
  "\x27" ++ t ++ "\x27 is not a MDT target of (" ++ server ++ ") server"

/-- Error text of `set_server` for an unknown server name. -/
def notServerMsg (name : String) : String :=
  "\x27" ++ name ++ "\x27 is not a correct server name"

/-- `do_select` → `set_server`: looks the name up in the mds catalog, then
the oss catalog; on success replaces the whole session. -/
def selectServer (sch : LustreSchema) (name : String) : Except String Session :=
  if (sch.mds.lookup name).isSome then
    .ok (updateServerMode (some "mds") (some name) ((sch.mds.lookup name).getD []))
  else if (sch.oss.lookup name).isSome then
    .ok (updateServerMode (some "oss") (some name) ((sch.oss.lookup name).getD []))
  else .error (notServerMsg name)

/-- `do_select` → `set_target`: requires server or target mode, then
membership in the current target list; an error leaves the session as it
was (the source only mutates the session through `updateTargetMode`). -/
def selectTarget (s : Session) (name : String) : Except String Session :=
  if ¬ (s.mode = .server ∨ s.mode = .target) then .error (noServerMsg name)
  else if name ∉ s.targetList then .error (notTargetMsg (pyStr s.serverName) name)
  else .ok (updateTargetMode s name)

/-- `ProvenanceShell.do_back`. -/
def doBack (s : Session) : Session :=
  if s.mode = .target then updateServerMode s.serverType s.serverName s.targetList
  else rootSession

/-- Sessions reachable from the initial state through the shell's
session-mutating operations (failed selections leave the state as is). -/
inductive Reach (sch : LustreSchema) : Session → Prop
  | init : Reach sch rootSession
  | selServer {s s1 : Session} {n : String} :
      Reach sch s → selectServer sch n = .ok s1 → Reach sch s1
  | selTarget {s s1 : Session} {n : String} :
      Reach sch s → selectTarget s n = .ok s1 → Reach sch s1
  | selJobs {s : Session} : Reach sch s → Reach sch updateJobsMode
  | back {s : Session} : Reach sch s → Reach sch (doBack s)

/-- Every catalogued server has a non-empty target list (the startup abort
guarantees the catalogs themselves exist). -/
def schemaOK (sch : LustreSchema) : Prop :=
  (∀ p ∈ sch.mds, p.2 ≠ []) ∧ (∀ p ∈ sch.oss, p.2 ≠ [])

/-- The mode-field agreement invariant of the spec data model. -/
def sessionInv (s : Session) : Prop :=
  (s.serverType.isSome ↔ (s.mode = .server ∨ s.mode = .target)) ∧
  (s.serverName.isSome ↔ (s.mode = .server ∨ s.mode = .target)) ∧
  (s.targetList ≠ [] ↔ (s.mode = .server ∨ s.mode = .target)) ∧
  (s.targetName.isSome ↔ s.mode = .target) ∧
  ((s.mode = .root ∨ s.mode = .jobs) →
    s.serverType = none ∧ s.serverName = none ∧ s.targetName = none ∧ s.targetList = [])

/-- A concrete two-catalog schema used by the witnesses. -/
def demoSchema : LustreSchema :=
  ⟨[("mds1", ["mdt0", "mdt1"])], [("oss1", ["ost0"])]⟩

/-! ### RESTful_API._gen_api_url -/

/-- The global API host. -/
def apiServerAddr : String := "129.118.104.152"

/-- The global API port. -/
def apiServerPort : String := "5000"

/-- `self._api_url` as assembled in `RESTful_API.__init__`. -/
def apiBaseUrl : String := "http://" ++ apiServerAddr ++ ":" ++ apiServerPort

/-- Removal of the first binding of a key (`dict.pop` on unique keys). -/
def eraseKeyFirst : List (String × String) → String → List (String × String)
  | [], _ => []
  | p :: rest, k => if p.1 = k then rest else p :: eraseKeyFirst rest k

/-- `kwargs.pop(k) if kwargs.get(k, None) else None`: the value is taken
and removed only when present and truthy. -/
def popTruthy (m : List (String × String)) (k : String) :
    Option String × List (String × String) :=
  match m.lookup k with
  | some v => if v = "" then (none, m) else (some v, eraseKeyFirst m k)
  | none => (none, m)

/-- `RESTful_API._gen_api_url(url_cmd, **kwargs)`. -/
def genApiUrl (urlCmd : String) (kwargs : List (String × String)) : String :=
  let cmd := if pyStartsWith urlCmd "/" then urlCmd else "/" ++ urlCmd
  let reqUrl := apiBaseUrl ++ "/provenance" ++ cmd
  if kwargs = [] then reqUrl
  else
    let p1 := popTruthy kwargs "jobid"
    let p2 := popTruthy p1.2 "taskid"
    let p3 := popTruthy p2.2 "cluster"
    let p4 := popTruthy p3.2 "sched"
    let kw : List (String × String) :=
      match p1.1 with
      | some j => pyUpd p4.2 "uid" (uniqID p3.1 p4.1 (some j) p2.1)
      | none => p4.2
    strDropLast (reqUrl ++ "?" ++ kw.foldl (fun acc p => acc ++ p.1 ++ "=" ++ p.2 ++ "&") "")

/-- The four parameters the claim says are folded into `uid`. -/
def jobKeys : List String := ["jobid", "taskid", "cluster", "sched"]

/-- Keep a parameter unless it is one of the four job keys with a
non-empty value. -/
def specKeep (p : String × String) : Bool :=
  !(decide (p.1 ∈ jobKeys) && !(p.2 == ""))

/-- The value of a parameter when present and non-empty. -/
def truthyVal (kwargs : List (String × String)) (k : String) : Option String :=
  match kwargs.lookup k with
  | some v => if v = "" then none else some v
  | none => none

/-- The URL of the amended claim: fixed base, `/provenance` prefix, command
path, then the parameters minus the non-empty job parameters, with a
single trailing `uid` computed from those fields, joined `key=value` with
no URL-encoding. -/
def genApiUrlSpec (urlCmd : String) (kwargs : List (String × String)) : String :=
  let cmd := if pyStartsWith urlCmd "/" then urlCmd else "/" ++ urlCmd
  let base := apiBaseUrl ++ "/provenance" ++ cmd
  let remaining := kwargs.filter specKeep
  let uid := uniqID (truthyVal kwargs "cluster") (truthyVal kwargs "sched")
      (truthyVal kwargs "jobid") (truthyVal kwargs "taskid")
  strDropLast (base ++ "?" ++
    (remaining ++ [("uid", uid)]).foldl (fun acc p => acc ++ p.1 ++ "=" ++ p.2 ++ "&") "")

/-- The claim's concatenation: drop the empty fields, keep the fixed order
scheduler, cluster, job id, task id. -/
def dropEmptyFields (l : List (Option String)) : List String :=
  (l.filterMap id).filter (fun v => v ≠ "")

/-- The identity key as the claim words it: the MD5 lowercase hex digest of
the separator-free concatenation of the non-empty fields in the order
scheduler, cluster, job id, task id. -/
def identityKeyClaim (scheduler cluster jobid taskid : Option String) : String :=
  md5HexDigest (strBytes (String.join (dropEmptyFields [scheduler, cluster, jobid, taskid])))

/-! ## Theorems -/

theorem pyFilterNone_eq_dropEmptyFields (l : List (Option String)) :
    pyFilterNone l = dropEmptyFields l := by
  induction l with
  | nil => rfl
  | cons o rest ih =>
    cases o with
    | none => simpa [pyFilterNone, dropEmptyFields] using ih
    | some v =>
      by_cases hv : v = "" <;>
        simp_all [pyFilterNone, dropEmptyFields, List.filterMap_cons]

theorem md5Bytes_length (msg : List Nat) : (md5Bytes msg).length = 16 := by
  simp [md5Bytes, leBytes4]

theorem byteToHex_length (b : Nat) : (byteToHex b).length = 2 := rfl

theorem hexAlphabet_getD_mem (n : Nat) : hexAlphabet.getD n '0' ∈ hexAlphabet := by
  by_cases h : n < hexAlphabet.length
  · rw [List.getD_eq_getElem _ _ h]
    exact List.getElem_mem h
  · rw [List.getD_eq_default _ _ (Nat.le_of_not_lt h)]
    decide

theorem byteToHex_mem {c : Char} {b : Nat} (h : c ∈ byteToHex b) : c ∈ hexAlphabet := by
  simp only [byteToHex, List.mem_cons, List.not_mem_nil, or_false] at h
  rcases h with rfl | rfl
  · exact hexAlphabet_getD_mem _
  · exact hexAlphabet_getD_mem _

theorem strAppend_assoc (a b c : String) : a ++ b ++ c = a ++ (b ++ c) := by
  cases a; cases b; cases c
  exact congrArg String.mk (List.append_assoc _ _ _)

theorem md5HexDigest_length (msg : List Nat) : (md5HexDigest msg).length = 32 := by
  have h : ∀ bs : List Nat, ((bs.map byteToHex).flatten).length = 2 * bs.length := by
    intro bs
    induction bs with
    | nil => rfl
    | cons b rest ih => simp [List.flatten, ih, byteToHex_length, Nat.mul_succ, Nat.add_comm]
  show ((md5Bytes msg).map byteToHex).flatten.length = 32
  rw [h, md5Bytes_length]

theorem md5HexDigest_hex (msg : List Nat) :
    ∀ c ∈ (md5HexDigest msg).data, c ∈ hexAlphabet := by
  intro c hc
  have hc1 : c ∈ ((md5Bytes msg).map byteToHex).flatten := hc
  rw [List.mem_flatten] at hc1
  obtain ⟨l, hl, hcl⟩ := hc1
  rw [List.mem_map] at hl
  obtain ⟨b, _, rfl⟩ := hl
  exact byteToHex_mem hcl

/-- Claim C1: the identity key computation is pure and deterministic; it
drops the empty fields, concatenates the rest in the fixed order
scheduler, cluster, job id, task id, applies MD5 (a 128-bit hash, hence 32
hex characters), and returns the lowercase hexadecimal digest; identical
fields give identical keys, and omitting the scheduler (`uge` on cluster
`genius`, job `123`) yields a different key than supplying it. -/
theorem C1_identity_key :
    (∀ cluster sched jobid taskid,
      uniqID cluster sched jobid taskid = identityKeyClaim sched cluster jobid taskid) ∧
    (∀ c s j t c1 s1 j1 t1, c = c1 → s = s1 → j = j1 → t = t1 →
      uniqID c s j t = uniqID c1 s1 j1 t1) ∧
    uniqID (some "genius") (some "uge") (some "123") none ≠
      uniqID (some "genius") none (some "123") none ∧
    (∀ cluster sched jobid taskid,
      (uniqID cluster sched jobid taskid).length = 32 ∧
      ∀ c ∈ (uniqID cluster sched jobid taskid).data, c ∈ hexAlphabet) := by
  refine ⟨?_, ?_, ?_, ?_⟩
  · intro cluster sched jobid taskid
    unfold uniqID identityKeyClaim
    rw [pyFilterNone_eq_dropEmptyFields]
    rfl
  · intro c s j t c1 s1 j1 t1 hc hs hj ht
    subst hc; subst hs; subst hj; subst ht; rfl
  · clear * -
    set_option maxRecDepth 1000000 in decide
  · intro cluster sched jobid taskid
    exact ⟨md5HexDigest_length _, md5HexDigest_hex _⟩

theorem C1_identity_key_witness :
    uniqID (some "genius") (some "uge") (some "123") none =
      uniqID (some "genius") (some "uge") (some "123") none :=
  C1_identity_key.2.1 _ _ _ _ _ _ _ _ rfl rfl rfl rfl

/-- Claim C2 counterexample: on the all-empty triple the source returns its
own placeholder text, not the string `path not recorded` asserted by the
claim. -/
theorem C2_path_counterexample :
    findAbsolutePath "" "" "" = "Changelog didn\x27t Record the Path" ∧
    findAbsolutePath "" "" "" ≠ "path not recorded" := by
  exact ⟨by decide, by decide⟩

/-- Claim C2 (amended): absolute-path resolution follows the claimed
cascade for every triple, with the placeholder string being the source's
`Changelog didn't Record the Path` rather than `path not recorded`. -/
theorem C2_path_cascade :
    ∀ targetFile targetPath parentPath,
      findAbsolutePath targetFile targetPath parentPath =
        resolveSpec targetFile targetPath parentPath := by
  intro tf tp pp
  unfold findAbsolutePath resolveSpec
  split_ifs <;> first | rfl | tauto

/-- Claim C3: the byte-magnitude converter compares against the threshold
1024 but divides by 1014 on each step, advancing KB, MB, GB, TB and
stopping when the value drops below 1024 or the units run out; values
below 1024 render with the bare unit `B`; and `convert("1024")` is exactly
`1.01 KB`. -/
theorem C3_byte_converter :
    (∀ x : ℚ, 0 ≤ x → convertFromByte x = claimConvert x) ∧
    (∀ x : ℚ, 0 ≤ x → x < 1024 → convertFromByte x = fmtTwoDec x ++ " B") ∧
    convertFromByte 1024 = "1.01 KB" := by
  refine ⟨?_, ?_, ?_⟩
  · intro x _
    simp only [convertFromByte, convGo, claimConvert]
    split_ifs <;> (rw [strAppend_assoc]; rfl)
  · intro x _ hx
    simp only [convertFromByte, convGo, if_pos hx]
    rw [strAppend_assoc]; rfl
  · have h1 : ¬ ((1024 : ℚ) < 1024) := by norm_num
    have h2 : ((1024 : ℚ) / 1014) < 1024 := by norm_num
    have h3 : ⌊((1024 : ℚ) / 1014 * 100 + 1 / 2)⌋ = 101 := by norm_num [Int.floor_eq_iff]
    simp only [convertFromByte, convGo, if_neg h1, if_pos h2, fmtTwoDec, h3]
    rfl

theorem C3_byte_converter_witness :
    (0 : ℚ) ≤ 1024 ∧ convertFromByte 1024 = claimConvert 1024 :=
  ⟨by decide, C3_byte_converter.1 1024 (by decide)⟩

theorem lookup_mem {β : Type} {l : List (String × β)} {k : String} {v : β}
    (h : l.lookup k = some v) : (k, v) ∈ l := by
  induction l with
  | nil => simp [List.lookup] at h
  | cons p rest ih =>
    obtain ⟨pk, pv⟩ := p
    by_cases hk : k = pk
    · subst hk
      simp [List.lookup] at h
      simp [h]
    · have hb : (k == pk) = false := beq_eq_false_iff_ne.mpr hk
      simp [List.lookup, hb] at h
      exact List.mem_cons_of_mem _ (ih h)

theorem selectServer_ok {sch : LustreSchema} {n : String} {s1 : Session}
    (h : selectServer sch n = .ok s1) :
    ∃ st tl, s1 = updateServerMode (some st) (some n) tl ∧
      ((st = "mds" ∧ sch.mds.lookup n = some tl) ∨
       (st = "oss" ∧ sch.oss.lookup n = some tl)) := by
  unfold selectServer at h
  split_ifs at h with h1 h2
  · obtain ⟨tl, htl⟩ := Option.isSome_iff_exists.mp h1
    injection h with h
    subst h
    exact ⟨"mds", tl, by simp [htl], Or.inl ⟨rfl, htl⟩⟩
  · obtain ⟨tl, htl⟩ := Option.isSome_iff_exists.mp h2
    injection h with h
    subst h
    exact ⟨"oss", tl, by simp [htl], Or.inr ⟨rfl, htl⟩⟩

theorem selectTarget_ok {s : Session} {n : String} {s1 : Session}
    (h : selectTarget s n = .ok s1) :
    (s.mode = .server ∨ s.mode = .target) ∧ n ∈ s.targetList ∧ s1 = updateTargetMode s n := by
  unfold selectTarget at h
  split_ifs at h with h1 h2
  injection h with h
  exact ⟨h1, h2, h.symm⟩

theorem rootJobs_cleared {sch : LustreSchema} {s : Session} (h : Reach sch s) :
    (s.mode = .root → s = rootSession) ∧ (s.mode = .jobs → s = updateJobsMode) := by
  induction h with
  | init => exact ⟨fun _ => rfl, fun hm => absurd hm (by decide)⟩
  | selServer hr hok ih =>
    obtain ⟨st, tl, rfl, _⟩ := selectServer_ok hok
    exact ⟨fun hm => by simp [updateServerMode] at hm,
           fun hm => by simp [updateServerMode] at hm⟩
  | selTarget hr hok ih =>
    obtain ⟨_, _, rfl⟩ := selectTarget_ok hok
    exact ⟨fun hm => by simp [updateTargetMode] at hm,
           fun hm => by simp [updateTargetMode] at hm⟩
  | selJobs hr ih =>
    exact ⟨fun hm => absurd hm (by decide), fun _ => rfl⟩
  | @back s0 hr ih =>
    by_cases ht : s0.mode = .target
    · simp only [doBack, if_pos ht]
      exact ⟨fun hm => by simp [updateServerMode] at hm,
             fun hm => by simp [updateServerMode] at hm⟩
    · simp only [doBack, if_neg ht]
      exact ⟨fun _ => by simp, fun hm => absurd hm (by decide)⟩

/-- Claim C9: in every session state reachable from the initial state
through the selection and step-back operations (over a schema whose
servers all carry targets), the server fields are set exactly in server or
target mode, the target name exactly in target mode, and in root and
jobs-only mode all fields are cleared. -/
theorem C9_mode_field_invariant :
    ∀ sch : LustreSchema, schemaOK sch → ∀ s : Session, Reach sch s → sessionInv s := by
  intro sch hok s hr
  induction hr with
  | init => unfold sessionInv; decide
  | selServer hr hs ih =>
    obtain ⟨st, tl, rfl, hcase⟩ := selectServer_ok hs
    have htl : tl ≠ [] := by
      rcases hcase with ⟨_, hl⟩ | ⟨_, hl⟩
      · exact hok.1 _ (lookup_mem hl)
      · exact hok.2 _ (lookup_mem hl)
    simp [sessionInv, updateServerMode, htl]
  | selTarget hr hs ih =>
    obtain ⟨hmode, hmem, rfl⟩ := selectTarget_ok hs
    obtain ⟨i1, i2, i3, i4, i5⟩ := ih
    refine ⟨?_, ?_, ?_, ?_, ?_⟩
    · simpa [sessionInv, updateTargetMode] using i1.mpr hmode
    · simpa [sessionInv, updateTargetMode] using i2.mpr hmode
    · simpa [sessionInv, updateTargetMode] using i3.mpr hmode
    · simp [sessionInv, updateTargetMode]
    · simp [sessionInv, updateTargetMode]
  | selJobs hr ih => unfold sessionInv; decide
  | @back s0 hr ih =>
    by_cases ht : s0.mode = .target
    · obtain ⟨i1, i2, i3, i4, i5⟩ := ih
      simp only [doBack, if_pos ht]
      refine ⟨?_, ?_, ?_, ?_, ?_⟩
      · simpa [sessionInv, updateServerMode] using i1.mpr (Or.inr ht)
      · simpa [sessionInv, updateServerMode] using i2.mpr (Or.inr ht)
      · simpa [sessionInv, updateServerMode] using i3.mpr (Or.inr ht)
      · simp [sessionInv, updateServerMode]
      · simp [sessionInv, updateServerMode]
    · simp only [doBack, if_neg ht]
      unfold sessionInv; decide

theorem C9_mode_field_invariant_witness : sessionInv rootSession :=
  C9_mode_field_invariant demoSchema (by unfold schemaOK; decide) rootSession Reach.init

/-- Claim C7: for every reachable session state, step-back from target mode
yields server mode with the server kind, name and target list retained and
the target name cleared; from server or jobs-only mode it yields the
cleared root state; and from root mode it leaves the state unchanged. -/
theorem C7_step_back :
    ∀ (sch : LustreSchema) (s : Session), Reach sch s →
      (s.mode = .target →
        (doBack s).mode = .server ∧ (doBack s).serverType = s.serverType ∧
        (doBack s).serverName = s.serverName ∧ (doBack s).targetList = s.targetList ∧
        (doBack s).targetName = none) ∧
      ((s.mode = .server ∨ s.mode = .jobs) → doBack s = rootSession) ∧
      (s.mode = .root → doBack s = s) := by
  intro sch s hr
  refine ⟨?_, ?_, ?_⟩
  · intro ht
    simp [doBack, ht, updateServerMode]
  · intro hm
    have hne : s.mode ≠ .target := by rcases hm with h | h <;> simp [h]
    simp [doBack, hne]
  · intro hm
    rw [(rootJobs_cleared hr).1 hm]
    rfl

theorem C7_step_back_witness : doBack rootSession = rootSession :=
  (C7_step_back demoSchema rootSession Reach.init).2.2 rfl

/-- Claim C8: selecting a target in root or jobs-only mode fails with the
no-server-selected error for every name (leaving the session untouched, as
the source reaches no session update on that path); in server or target
mode an unlisted name fails with the unknown-target error; and a listed
name moves the session to target mode with the name recorded and the
server fields retained. -/
theorem C8_select_target :
    ∀ (s : Session) (name : String),
      ((s.mode = .root ∨ s.mode = .jobs) → selectTarget s name = .error (noServerMsg name)) ∧
      ((s.mode = .server ∨ s.mode = .target) → name ∉ s.targetList →
        selectTarget s name = .error (notTargetMsg (pyStr s.serverName) name)) ∧
      ((s.mode = .server ∨ s.mode = .target) → name ∈ s.targetList →
        selectTarget s name = .ok { s with mode := .target, targetName := some name }) := by
  intro s name
  refine ⟨?_, ?_, ?_⟩
  · intro hm
    have hne : ¬ (s.mode = .server ∨ s.mode = .target) := by
      rcases hm with h | h <;> simp [h]
    simp [selectTarget, hne]
  · intro hm hnm
    unfold selectTarget
    rw [if_neg (not_not_intro hm), if_pos hnm]
  · intro hm hmem
    unfold selectTarget
    rw [if_neg (not_not_intro hm), if_neg (not_not_intro hmem)]
    rfl

theorem C8_select_target_witness :
    selectTarget updateJobsMode "ost0" = .error (noServerMsg "ost0") :=
  (C8_select_target updateJobsMode "ost0").1 (Or.inr rfl)

theorem statusOf_ne_empty {s st : String} (h : statusOf s = some st) : st ≠ "" := by
  unfold statusOf at h
  split_ifs at h
  · injection h with h; subst h; decide
  · injection h with h; subst h; decide

theorem crossCheck_cases (m : ArgMap) :
    crossCheck m = .ok m ∨ ∃ e, crossCheck m = .err e := by
  unfold crossCheck
  split_ifs <;> simp

theorem crossCheck_ok {m m1 : ArgMap} (h : crossCheck m = .ok m1) :
    m1 = m ∧ rulesHold m := by
  unfold crossCheck at h
  split_ifs at h with h1 h2 h3
  · injection h with h
    refine ⟨h.symm, ?_, ?_, ?_⟩
    · intro hjs
      by_contra hd
      exact h1 ⟨hjs, hd⟩
    · intro ht
      by_contra hj
      exact h3 ⟨ht, hj⟩
    · intro hj
      by_contra hc
      exact h2 ⟨hj, hc⟩

theorem verify_cases (m : ArgMap) :
    (∃ m1, verifyFields m = .ok m1 ∧ populated m1) ∨
    (∃ e, verifyFields m = .err e) ∨
    (verifyFields m = .exn ∧ ∃ v, ("days", some v) ∈ m ∧ pythonInt v = none) := by
  induction m with
  | nil => exact Or.inl ⟨[], rfl, by simp [populated]⟩
  | cons p rest ih =>
    obtain ⟨k, v⟩ := p
    cases v with
    | none => exact Or.inr (Or.inl ⟨noValueMsg k, by simp [verifyFields]⟩)
    | some s =>
      by_cases hs : s = ""
      · exact Or.inr (Or.inl ⟨noValueMsg k, by simp [verifyFields, hs]⟩)
      · by_cases hk : k = "js"
        · cases hst : statusOf s with
          | none =>
            exact Or.inr (Or.inl ⟨badStatusMsg s k, by simp [verifyFields, hs, hk, hst]⟩)
          | some st =>
            rcases ih with ⟨m1, hok, hpop⟩ | ⟨e, herr⟩ | ⟨hexn, w, hw, hpi⟩
            · refine Or.inl ⟨(k, some st) :: m1, by simp [verifyFields, hs, hk, hst, hok], ?_⟩
              intro q hq
              rcases List.mem_cons.mp hq with rfl | hq
              · exact ⟨st, rfl, statusOf_ne_empty hst⟩
              · exact hpop q hq
            · exact Or.inr (Or.inl ⟨e, by simp [verifyFields, hs, hk, hst, herr]⟩)
            · exact Or.inr (Or.inr ⟨by simp [verifyFields, hs, hk, hst, hexn], w,
                List.mem_cons_of_mem _ hw, hpi⟩)
        · by_cases hd : k = "days"
          · cases hpi : pythonInt s with
            | none =>
              refine Or.inr (Or.inr ⟨by simp [verifyFields, hs, hk, hd, hpi], s, ?_, hpi⟩)
              rw [← hd]
              exact List.mem_cons_self _ _
            | some n =>
              by_cases hn : n < 1
              · exact Or.inr (Or.inl ⟨badDaysMsg, by simp [verifyFields, hs, hk, hd, hpi, hn]⟩)
              · rcases ih with ⟨m1, hok, hpop⟩ | ⟨e, herr⟩ | ⟨hexn, w, hw, hpi2⟩
                · refine Or.inl ⟨(k, some s) :: m1,
                    by simp [verifyFields, hs, hk, hd, hpi, hn, hok], ?_⟩
                  intro q hq
                  rcases List.mem_cons.mp hq with rfl | hq
                  · exact ⟨s, rfl, hs⟩
                  · exact hpop q hq
                · exact Or.inr (Or.inl ⟨e, by simp [verifyFields, hs, hk, hd, hpi, hn, herr]⟩)
                · exact Or.inr (Or.inr ⟨by simp [verifyFields, hs, hk, hd, hpi, hn, hexn], w,
                    List.mem_cons_of_mem _ hw, hpi2⟩)
          · rcases ih with ⟨m1, hok, hpop⟩ | ⟨e, herr⟩ | ⟨hexn, w, hw, hpi⟩
            · refine Or.inl ⟨(k, some s) :: m1, by simp [verifyFields, hs, hk, hd, hok], ?_⟩
              intro q hq
              rcases List.mem_cons.mp hq with rfl | hq
              · exact ⟨s, rfl, hs⟩
              · exact hpop q hq
            · exact Or.inr (Or.inl ⟨e, by simp [verifyFields, hs, hk, hd, herr]⟩)
            · exact Or.inr (Or.inr ⟨by simp [verifyFields, hs, hk, hd, hexn], w,
                List.mem_cons_of_mem _ hw, hpi⟩)

/-- Claim C4 (code bug): on every accepted token stream the resulting
filter satisfies all three cross-field rules; but the stream
`-t 1 -d x`, which violates the taskId-requires-jobId rule, makes the
source raise an uncaught `ValueError` from `int("x")` instead of being
rejected with a validation error. -/
theorem C4_cross_field_rules :
    (∀ tokens m, parsJobsArgs tokens = .ok m → rulesHold m) ∧
    parsJobsArgs ["-t", "1", "-d", "x"] = .exn := by
  constructor
  · intro tokens m h
    unfold parsJobsArgs at h
    cases hw : rawWalk tokens with
    | error e =>
      simp only [hw] at h
      exact ParseResult.noConfusion h
    | ok m0 =>
      simp only [hw] at h
      cases hv : verifyFields m0 with
      | ok m1 =>
        simp only [hv] at h
        obtain ⟨heq, hr⟩ := crossCheck_ok h
        subst heq
        exact hr
      | err e =>
        simp only [hv] at h
        exact ParseResult.noConfusion h
      | exn =>
        simp only [hv] at h
        exact ParseResult.noConfusion h
  · decide

theorem C4_cross_field_rules_witness :
    parsJobsArgs ["-js", "f", "-d", "7"] = .ok [("js", some "FINISHED"), ("days", some "7")] ∧
    rulesHold [("js", some "FINISHED"), ("days", some "7")] :=
  ⟨by decide, C4_cross_field_rules.1 ["-js", "f", "-d", "7"] _ (by decide)⟩

/-- Claim C5 (code bug): a days value below one is rejected with the
descriptive error, and an in-range days value is accepted, but a days
value that does not parse as an integer (here `x`) raises an uncaught
`ValueError` — the validator terminates abnormally instead of returning a
validation error. -/
theorem C5_days_validation :
    parsJobsArgs ["-d", "x"] = .exn ∧
    parsJobsArgs ["-d", "0"] = .err badDaysMsg ∧
    parsJobsArgs ["-d", "7", "-u", "bob"] = .ok [("days", some "7"), ("user", some "bob")] := by
  exact ⟨by decide, by decide, by decide⟩

/-- Claim C6 counterexample: in the stream `-js x -j` both the `js` value
is invalid and the `jobid` field has no value; the documented scan order
(all empty-value checks before status normalization) would report the
`jobid` no-value error, but the source reports the `js` status error,
because it checks each field completely before moving to the next. -/
theorem C6_first_error_counterexample :
    rawWalk ["-js", "x", "-j"] = .ok [("js", some "x"), ("jobid", none)] ∧
    parsJobsArgs ["-js", "x", "-j"] = .err (badStatusMsg "x" "js") ∧
    badStatusMsg "x" "js" ≠ noValueMsg "jobid" := by
  exact ⟨rfl, by decide, by decide⟩

/-- Claim C6 (amended): the validator returns a fully populated filter
map, or exactly one descriptive error, or raises an uncaught exception
precisely when a collected days value does not parse as an integer; the
error reported for a stream with several violations is the first one
encountered in the source's scan, which walks the collected fields in
insertion order applying the empty-value, status and days checks per
field. -/
theorem C6_single_error :
    ∀ tokens : List String,
      (∃ m, parsJobsArgs tokens = .ok m ∧ populated m) ∨
      (∃ e, parsJobsArgs tokens = .err e) ∨
      (parsJobsArgs tokens = .exn ∧
        ∃ m v, rawWalk tokens = .ok m ∧ ("days", some v) ∈ m ∧ pythonInt v = none) := by
  intro tokens
  unfold parsJobsArgs
  cases hw : rawWalk tokens with
  | error e => exact Or.inr (Or.inl ⟨e, rfl⟩)
  | ok m =>
    rcases verify_cases m with ⟨m1, hok, hpop⟩ | ⟨e, herr⟩ | ⟨hexn, v, hv, hpi⟩
    · rcases crossCheck_cases m1 with hcc | ⟨e, hcc⟩
      · exact Or.inl ⟨m1, by simp [hok, hcc], hpop⟩
      · exact Or.inr (Or.inl ⟨e, by simp [hok, hcc]⟩)
    · exact Or.inr (Or.inl ⟨e, by simp [herr]⟩)
    · exact Or.inr (Or.inr ⟨by simp [hexn], m, v, rfl, hv, hpi⟩)

theorem keys_filter_nodup {m : List (String × String)} (pred : String × String → Bool)
    (h : (m.map Prod.fst).Nodup) : ((m.filter pred).map Prod.fst).Nodup :=
  List.Nodup.sublist (List.Sublist.map Prod.fst (List.filter_sublist m)) h

theorem lookup_none_not_key {β : Type} {m : List (String × β)} {k : String}
    (h : m.lookup k = none) : ∀ p ∈ m, p.1 ≠ k := by
  induction m with
  | nil => intro p hp; cases hp
  | cons q rest ih =>
    intro p hp
    by_cases hb : (k == q.1) = true
    · simp [List.lookup, hb] at h
    · rw [List.lookup, Bool.eq_false_iff.mpr hb] at h
      rcases List.mem_cons.mp hp with rfl | hp2
      · exact fun he => hb (beq_iff_eq.mpr he.symm)
      · exact ih h p hp2

theorem nodup_lookup_mem {β : Type} {m : List (String × β)}
    (h : (m.map Prod.fst).Nodup) {p : String × β} (hp : p ∈ m) :
    m.lookup p.1 = some p.2 := by
  induction m with
  | nil => cases hp
  | cons q rest ih =>
    simp only [List.map_cons, List.nodup_cons] at h
    rcases List.mem_cons.mp hp with rfl | hp2
    · simp [List.lookup]
    · have hq : p.1 ≠ q.1 := by
        intro he
        exact h.1 (he ▸ List.mem_map_of_mem Prod.fst hp2)
      rw [List.lookup, beq_eq_false_iff_ne.mpr hq]
      exact ih h.2 hp2

theorem eraseKeyFirst_eq_filter {m : List (String × String)} {k : String}
    (h : (m.map Prod.fst).Nodup) :
    eraseKeyFirst m k = m.filter (fun p => !(p.1 == k)) := by
  induction m with
  | nil => rfl
  | cons p rest ih =>
    simp only [List.map_cons, List.nodup_cons] at h
    by_cases hp : p.1 = k
    · rw [eraseKeyFirst, if_pos hp, List.filter_cons_of_neg (by simp [hp])]
      symm
      apply List.filter_eq_self.mpr
      intro q hq
      have hqk : q.1 ≠ k := by
        intro he
        exact h.1 (hp ▸ he ▸ List.mem_map_of_mem Prod.fst hq)
      simp [hqk]
    · rw [eraseKeyFirst, if_neg hp, List.filter_cons_of_pos (by simp [hp]), ih h.2]

theorem popTruthy_eq {m : List (String × String)} {k : String}
    (h : (m.map Prod.fst).Nodup) :
    popTruthy m k = (truthyVal m k, m.filter (fun p => !(p.1 == k && !(p.2 == "")))) := by
  cases hl : m.lookup k with
  | none =>
    simp only [popTruthy, truthyVal, hl]
    congr 1
    symm
    apply List.filter_eq_self.mpr
    intro q hq
    simp [lookup_none_not_key hl q hq]
  | some v =>
    by_cases hv : v = ""
    · simp only [popTruthy, truthyVal, hl, if_pos hv]
      congr 1
      symm
      apply List.filter_eq_self.mpr
      intro q hq
      by_cases hqk : q.1 = k
      · have hlq : m.lookup q.1 = some q.2 := nodup_lookup_mem h hq
        rw [hqk, hl] at hlq
        injection hlq with hv2
        simp [hqk, ← hv2, hv]
      · simp [hqk]
    · simp only [popTruthy, truthyVal, hl, if_neg hv]
      congr 1
      rw [eraseKeyFirst_eq_filter h]
      apply List.filter_congr
      intro q hq
      by_cases hqk : q.1 = k
      · have hlq : m.lookup q.1 = some q.2 := nodup_lookup_mem h hq
        rw [hqk, hl] at hlq
        injection hlq with hv2
        simp [hqk, ← hv2, hv]
      · simp [hqk]

theorem lookup_filter_keep {β : Type} {m : List (String × β)} {k : String}
    {pred : String × β → Bool} (h : ∀ p : String × β, p.1 = k → pred p = true) :
    (m.filter pred).lookup k = m.lookup k := by
  induction m with
  | nil => rfl
  | cons p rest ih =>
    by_cases hp : pred p = true
    · rw [List.filter_cons_of_pos hp]
      by_cases hk : k = p.1
      · simp [List.lookup, beq_iff_eq.mpr hk]
      · rw [List.lookup, List.lookup, beq_eq_false_iff_ne.mpr hk]
        exact ih
    · have hne : k ≠ p.1 := fun hq => hp (h p hq.symm)
      rw [List.filter_cons_of_neg (by simpa using hp), List.lookup,
        beq_eq_false_iff_ne.mpr hne]
      exact ih

theorem truthyVal_filter {m : List (String × String)} {pred : String × String → Bool}
    {k : String} (h : ∀ p : String × String, p.1 = k → pred p = true) :
    truthyVal (m.filter pred) k = truthyVal m k := by
  unfold truthyVal
  rw [lookup_filter_keep h]

theorem pyUpd_append {β : Type} {m : List (String × β)} {k : String} {v : β}
    (h : ∀ p ∈ m, p.1 ≠ k) : pyUpd m k v = m ++ [(k, v)] := by
  induction m with
  | nil => rfl
  | cons p rest ih =>
    rw [pyUpd, if_neg (h p (List.mem_cons_self p rest)),
      ih (fun q hq => h q (List.mem_cons_of_mem _ hq)), List.cons_append]

theorem keepOther (k1 k2 : String) (hkk : k2 ≠ k1) :
    ∀ p : String × String, p.1 = k2 → (!(p.1 == k1 && !(p.2 == ""))) = true := by
  intro p hp
  rw [hp, beq_eq_false_iff_ne.mpr hkk]
  simp

/-- Claim C10 (amended): when the parameters carry a non-empty `jobid` (and
no caller-supplied `uid`), the builder removes the non-empty parameters
among `jobid`, `taskid`, `cluster`, `sched` and appends a single `uid`
computed by the MD5 identity key from exactly those values; the URL is the
fixed base, the `/provenance` prefix, the command path, and the remaining
parameters joined `key=value` with `&` and no URL-encoding. -/
theorem C10_url_builder :
    ∀ (urlCmd : String) (kwargs : List (String × String)) (j : String),
      (kwargs.map Prod.fst).Nodup → "uid" ∉ kwargs.map Prod.fst →
      kwargs.lookup "jobid" = some j → j ≠ "" →
      genApiUrl urlCmd kwargs = genApiUrlSpec urlCmd kwargs := by
  intro urlCmd kwargs j hnd huid hj hjne
  have hne : kwargs ≠ [] := by
    intro he
    rw [he] at hj
    exact Option.noConfusion hj
  have hjv : truthyVal kwargs "jobid" = some j := by
    simp only [truthyVal, hj, if_neg hjne]
  have hnd1 : ((kwargs.filter (fun p => !(p.1 == "jobid" && !(p.2 == "")))).map Prod.fst).Nodup :=
    keys_filter_nodup _ hnd
  have hnd2 := keys_filter_nodup (fun p : String × String => !(p.1 == "taskid" && !(p.2 == ""))) hnd1
  have hnd3 := keys_filter_nodup (fun p : String × String => !(p.1 == "cluster" && !(p.2 == ""))) hnd2
  have e1 : popTruthy kwargs "jobid" =
      (some j, kwargs.filter (fun p => !(p.1 == "jobid" && !(p.2 == "")))) := by
    rw [popTruthy_eq hnd, hjv]
  have e2 : popTruthy (kwargs.filter (fun p => !(p.1 == "jobid" && !(p.2 == "")))) "taskid" =
      (truthyVal kwargs "taskid",
        (kwargs.filter (fun p => !(p.1 == "jobid" && !(p.2 == "")))).filter
          (fun p => !(p.1 == "taskid" && !(p.2 == "")))) := by
    rw [popTruthy_eq hnd1, truthyVal_filter (keepOther "jobid" "taskid" (by decide))]
  have e3 : popTruthy ((kwargs.filter (fun p => !(p.1 == "jobid" && !(p.2 == "")))).filter
        (fun p => !(p.1 == "taskid" && !(p.2 == "")))) "cluster" =
      (truthyVal kwargs "cluster",
        ((kwargs.filter (fun p => !(p.1 == "jobid" && !(p.2 == "")))).filter
          (fun p => !(p.1 == "taskid" && !(p.2 == "")))).filter
            (fun p => !(p.1 == "cluster" && !(p.2 == "")))) := by
    rw [popTruthy_eq hnd2, truthyVal_filter (keepOther "taskid" "cluster" (by decide)),
      truthyVal_filter (keepOther "jobid" "cluster" (by decide))]
  have e4 : popTruthy (((kwargs.filter (fun p => !(p.1 == "jobid" && !(p.2 == "")))).filter
        (fun p => !(p.1 == "taskid" && !(p.2 == "")))).filter
          (fun p => !(p.1 == "cluster" && !(p.2 == "")))) "sched" =
      (truthyVal kwargs "sched",
        (((kwargs.filter (fun p => !(p.1 == "jobid" && !(p.2 == "")))).filter
          (fun p => !(p.1 == "taskid" && !(p.2 == "")))).filter
            (fun p => !(p.1 == "cluster" && !(p.2 == "")))).filter
              (fun p => !(p.1 == "sched" && !(p.2 == "")))) := by
    rw [popTruthy_eq hnd3, truthyVal_filter (keepOther "cluster" "sched" (by decide)),
      truthyVal_filter (keepOther "taskid" "sched" (by decide)),
      truthyVal_filter (keepOther "jobid" "sched" (by decide))]
  have hfil : (((kwargs.filter (fun p => !(p.1 == "jobid" && !(p.2 == "")))).filter
        (fun p => !(p.1 == "taskid" && !(p.2 == "")))).filter
          (fun p => !(p.1 == "cluster" && !(p.2 == "")))).filter
            (fun p => !(p.1 == "sched" && !(p.2 == ""))) = kwargs.filter specKeep := by
    rw [List.filter_filter, List.filter_filter, List.filter_filter]
    apply List.filter_congr
    intro p hp
    obtain ⟨a, b⟩ := p
    cases hb : (b == "") with
    | true => simp [specKeep, hb]
    | false =>
      by_cases h1 : a = "jobid" <;> by_cases h2 : a = "taskid" <;>
        by_cases h3 : a = "cluster" <;> by_cases h4 : a = "sched" <;>
        simp +decide [specKeep, jobKeys, h1, h2, h3, h4, hb]
  have hupd : ∀ x : String, pyUpd (kwargs.filter specKeep) "uid" x =
      kwargs.filter specKeep ++ [("uid", x)] := by
    intro x
    apply pyUpd_append
    intro p hp he
    exact huid (he ▸ List.mem_map_of_mem Prod.fst (List.mem_of_mem_filter hp))
  simp only [genApiUrl, genApiUrlSpec, if_neg hne, e1, e2, e3, e4, hfil, hjv, hupd]

theorem C10_url_builder_witness :
    genApiUrl "/jobinfo" [("jobid", "7"), ("user", "bob")] =
      genApiUrlSpec "/jobinfo" [("jobid", "7"), ("user", "bob")] :=
  C10_url_builder "/jobinfo" [("jobid", "7"), ("user", "bob")] "7"
    (by decide) (by decide) (by decide) (by decide)

/-- Claim C10 counterexample: with a non-empty `jobid` but an empty-valued
`taskid` parameter, the builder leaves `taskid=` in the query string
instead of removing the `taskid` parameter as the claim asserts (the `uid`
here is the MD5 identity key of the bare job id `7`). -/
theorem C10_url_counterexample :
    genApiUrl "/jobinfo" [("jobid", "7"), ("taskid", "")] =
      "http://129.118.104.152:5000/provenance/jobinfo?taskid=&uid=8f14e45fceea167a5a36dedd4bea2543" ∧
    strContains (genApiUrl "/jobinfo" [("jobid", "7"), ("taskid", "")]) "taskid=" = true := by
  refine ⟨?_, ?_⟩
  · set_option maxRecDepth 1000000 in decide
  · set_option maxRecDepth 1000000 in decide

end Provenance
